import Mathlib

/-!
Shallow embedding of the caption-extraction pipeline of the
hlscaptionfinder repository (Rust), together with theorems settling the
frozen claims about its specification.

Bytes are modelled as `Nat` (inputs are `u8`, hence < 256; the masking
operations of the source keep every derived value in range).  Byte
sequences are `List Nat`.  Caption strings are lists of Unicode code
points (`List Nat`).  Fallible reads (direct slice indexing in Rust,
which panics when out of bounds) are modelled in the `Option` monad:
`none` is a panic.  Loops are structural recursions on an explicit fuel
argument that the call sites instantiate with a bound that dominates the
iteration count of the source loop (each source loop strictly advances
its index, so `length + 1` style bounds suffice).
-/

namespace HlsCap

/-- Checked byte read: Rust `data[i]`, which panics when out of bounds. -/
def getB (l : List Nat) (i : Nat) : Option Nat := l.get? i

/-- Checked open slice: Rust `&data[i..]`, which panics when `i > len`. -/
def sliceFrom (l : List Nat) (a : Nat) : Option (List Nat) :=
  if a ≤ l.length then some (l.drop a) else none

/-- Total sub-slice `data[a..a+n]` used only under guards that already
establish the bounds (mirrors guarded slice comparisons in the source). -/
def subSlice (l : List Nat) (a n : Nat) : List Nat := (l.drop a).take n

/-- State of `LibcaptionTsParser` (src/libcaption_compat.rs). -/
structure LcState where
  pmtpid : Option Nat
  ccpid : Option Nat
  streamType : Option Nat
  pts : Option Nat
  dts : Option Nat
  data : List Nat
deriving Repr, DecidableEq

/-- `LibcaptionTsParser::new` (src/libcaption_compat.rs). -/
def lcInit : LcState :=
  { pmtpid := none, ccpid := none, streamType := none
    pts := none, dts := none, data := [] }

/-- `LibcaptionTsParser::parse_timestamp` (src/libcaption_compat.rs,
lines 161-173).  The bit operations only ever produce non-negative
values below 2^33, so `Nat` models the `i64` faithfully. -/
def lcParseTimestamp (l : List Nat) : Nat :=
  if l.length < 5 then 0
  else
    (((l.getD 0 0) &&& 0x0E) <<< 29) |||
    (((l.getD 1 0) &&& 0xFF) <<< 22) |||
    (((l.getD 2 0) &&& 0xFE) <<< 14) |||
    (((l.getD 3 0) &&& 0xFF) <<< 7) |||
    (((l.getD 4 0) &&& 0xFE) >>> 1)

/-- Descriptor loop of the PMT branch of
`LibcaptionTsParser::parse_packet` (src/libcaption_compat.rs, lines
112-124).  `fuel` dominates the iteration count: each iteration advances
`i` by at least 5 and requires `i + 5 ≤ pkt.length`, so `pkt.length`
iterations can never be reached. -/
def pmtLoopF : Nat → List Nat → Nat → Int → LcState → Option LcState
  | 0, _, _, _, st => some st
  | fuel+1, pkt, i, dll, st =>
    if 5 ≤ dll ∧ i + 5 ≤ pkt.length then do
      let t ← getB pkt i
      let e1 ← getB pkt (i+1)
      let e2 ← getB pkt (i+2)
      let s1 ← getB pkt (i+3)
      let s2 ← getB pkt (i+4)
      let es := ((s1 &&& 0x0F) <<< 8) ||| s2
      let st2 :=
        if t = 0x1B ∨ t = 0x24 then
          { st with ccpid := some (((e1 &&& 0x1F) <<< 8) ||| e2), streamType := some t }
        else st
      pmtLoopF fuel pkt (i + 5 + es) (dll - (5 + (es : Int))) st2
    else some st

/-- PAT branch of `LibcaptionTsParser::parse_packet`
(src/libcaption_compat.rs, lines 90-96); the pointer-advanced offset
`i + ptr + 1` is written out at each use, and the `return Ok(None)`
after the inner `if` is pushed into both branches. -/
def lcPatBody (st : LcState) (pkt : List Nat) (i : Nat) :
    Option (LcState × Option (List Nat)) := do
  let ptr ← getB pkt i
  if i + ptr + 1 + 12 ≤ pkt.length then do
    let hi ← getB pkt (i + ptr + 1 + 10)
    let lo ← getB pkt (i + ptr + 1 + 11)
    pure ({ st with pmtpid := some (((hi &&& 0x1F) <<< 8) ||| lo) }, none)
  else pure (st, none)

/-- PMT branch of `LibcaptionTsParser::parse_packet`
(src/libcaption_compat.rs, lines 98-129); offsets written out, the
`return Ok(None)` pushed into every branch. -/
def lcPmtBody (st : LcState) (pkt : List Nat) (i : Nat) :
    Option (LcState × Option (List Nat)) := do
  let ptr ← getB pkt i
  if i + ptr + 1 + 12 ≤ pkt.length then do
    let sl1 ← getB pkt (i + ptr + 1 + 1)
    let sl2 ← getB pkt (i + ptr + 1 + 2)
    let cur ← getB pkt (i + ptr + 1 + 5)
    let p1 ← getB pkt (i + ptr + 1 + 10)
    let p2 ← getB pkt (i + ptr + 1 + 11)
    if cur &&& 0x01 ≠ 0 then do
      let st2 ← pmtLoopF pkt.length pkt
        (i + ptr + 1 + 12 + (((p1 &&& 0x0F) <<< 8) ||| p2))
        ((((((sl1 &&& 0x0F) <<< 8) ||| sl2) : Nat) : Int) -
          (9 + ((((p1 &&& 0x0F) <<< 8) ||| p2 : Nat) : Int) + 4)) st
      pure (st2, none)
    else pure (st, none)
  else pure (st, none)

/-- PES header parse of the video branch of
`LibcaptionTsParser::parse_packet` (src/libcaption_compat.rs, lines
134-150); returns the state and the advanced offset `i + 9 +
header_length`.  In the PTS-without-DTS case the source sets `dts` to
the `pts` it just stored, the timestamp of the same slice. -/
def lcPesHeader (st : LcState) (pkt : List Nat) (i : Nat) :
    Option (LcState × Nat) := do
  let b7 ← getB pkt (i+7)
  let b8 ← getB pkt (i+8)
  if b7 &&& 0x80 ≠ 0 ∧ i + 14 ≤ pkt.length then do
    let s1 ← sliceFrom pkt (i+9)
    if b7 &&& 0x40 ≠ 0 ∧ i + 19 ≤ pkt.length then do
      let s2 ← sliceFrom pkt (i+14)
      pure ({ st with pts := some (lcParseTimestamp s1),
                      dts := some (lcParseTimestamp s2) }, i + 9 + b8)
    else
      pure ({ st with pts := some (lcParseTimestamp s1),
                      dts := some (lcParseTimestamp s1) }, i + 9 + b8)
  else pure (st, i + 9 + b8)

/-- The conditional PES-header step of the video branch
(src/libcaption_compat.rs, line 134): the header is parsed only when
PUSI is set and 9 bytes of header fit. -/
def lcPesStep (st : LcState) (pkt : List Nat) (i : Nat) (pusi : Bool) :
    Option (LcState × Nat) :=
  if pusi ∧ i + 9 ≤ pkt.length then lcPesHeader st pkt i
  else pure (st, i)

/-- Video branch of `LibcaptionTsParser::parse_packet`
(src/libcaption_compat.rs, lines 132-156). -/
def lcVideoBody (st : LcState) (pkt : List Nat) (i : Nat) (pusi : Bool) :
    Option (LcState × Option (List Nat)) := do
  let r ← lcPesStep st pkt i pusi
  if r.2 < pkt.length then do
    let pay ← sliceFrom pkt r.2
    pure (r.1, some pay)
  else pure (r.1, none)

/-- Header advance of `LibcaptionTsParser::parse_packet`
(src/libcaption_compat.rs, lines 80-87): offset 4, plus
`1 + adaptation_length` when the adaptation field is present. -/
def lcAfterHeader (pkt : List Nat) (b3 : Nat) : Option Nat :=
  if b3 &&& 0x20 ≠ 0 then do
    let al ← getB pkt 4
    pure (4 + 1 + al)
  else pure 4

/-- `LibcaptionTsParser::parse_packet` (src/libcaption_compat.rs, lines
76-159).  Returns the updated state and the optional video payload; the
PID and flag expressions of lines 78-81 are written out at each use. -/
def lcParsePacket (st : LcState) (pkt : List Nat) : Option (LcState × Option (List Nat)) := do
  let b1 ← getB pkt 1
  let b2 ← getB pkt 2
  let b3 ← getB pkt 3
  let i ← lcAfterHeader pkt b3
  if ((b1 &&& 0x1F) <<< 8) ||| b2 = 0 ∧ b3 &&& 0x10 ≠ 0 ∧ i < pkt.length then
    lcPatBody st pkt i
  else if st.pmtpid = some (((b1 &&& 0x1F) <<< 8) ||| b2) ∧ b3 &&& 0x10 ≠ 0 ∧
      i < pkt.length then
    lcPmtBody st pkt i
  else if st.ccpid = some (((b1 &&& 0x1F) <<< 8) ||| b2) ∧ b3 &&& 0x10 ≠ 0 then
    lcVideoBody st pkt i (decide (b1 &&& 0x40 ≠ 0))
  else pure (st, none)

/-- First index at which `pat` occurs as a contiguous run of `l`
(scanning every position, as the index loops of
`LibcaptionTsParser::find_start_code` do). -/
def findPat (pat : List Nat) : List Nat → Option Nat
  | [] => if pat.isPrefixOf ([] : List Nat) then some 0 else none
  | a :: rest =>
    if pat.isPrefixOf (a :: rest) then some 0
    else (findPat pat rest).map (· + 1)

/-- `LibcaptionTsParser::find_start_code` (src/libcaption_compat.rs,
lines 214-239): the 4-byte start code anywhere takes priority over the
3-byte start code. -/
def lcFindStartCode (l : List Nat) : Option (Nat × Nat) :=
  match findPat [0, 0, 0, 1] l with
  | some i => some (i, 4)
  | none =>
    match findPat [0, 0, 1] l with
    | some i => some (i, 3)
    | none => none

/-- Start-code framing loop of `LibcaptionTsParser::process_video_data`
(src/libcaption_compat.rs, lines 182-209), separated from the (pure,
stateless) per-NAL decoding it interleaves with.  Returns the framed NAL
units in order and the remaining buffer.  Every productive iteration
drops at least 3 bytes from the buffer, so `length + 1` fuel suffices. -/
def lcScanNalus : Nat → List Nat → List (List Nat) × List Nat
  | 0, buf => ([], buf)
  | fuel+1, buf =>
    match lcFindStartCode buf with
    | none => ([], buf)
    | some (sp, scl) =>
      match lcFindStartCode (buf.drop (sp + scl)) with
      | some (next, _) =>
        let naluEnd := sp + scl + next
        let nalu := subSlice buf (sp + scl) next
        let r := lcScanNalus fuel (buf.drop naluEnd)
        (nalu :: r.1, r.2)
      | none =>
        if buf.length - sp - scl > 0 then ([buf.drop (sp + scl)], [])
        else ([], buf)

/-- Run of leading `0xFF` bytes (SEI payload type and size chains). -/
def ffRun : List Nat → Nat
  | [] => 0
  | a :: rest => if a = 255 then 1 + ffRun rest else 0

/-- `LibcaptionTsParser::is_cea608_control_code` (src/libcaption_compat.rs,
lines 372-398). -/
def lcIsControl (d1 d2 : Nat) : Bool :=
  if d1 = 0 ∧ d2 = 0 then true
  else if 0x10 ≤ d1 ∧ d1 ≤ 0x1F then true
  else if (0x10 ≤ d1 ∧ d1 ≤ 0x17) ∨ (0x18 ≤ d1 ∧ d1 ≤ 0x1F) then true
  else if (d1 = 0x2C ∧ d2 = 0x2C) ∨ (d1 = 0x2F ∧ d2 = 0x2F) ∨ (d1 = 0x40 ∧ d2 ≤ 0x7F) then true
  else false

/-- Trim of the ASCII space character.  Every character reachable in the
strings of `decode_cea608_chars` lies in `0x20..0x7F`, where `0x20` is
the only Rust whitespace character, so this models `str::trim` there. -/
def trimSp (l : List Nat) : List Nat :=
  (l.dropWhile (· = 0x20)).reverse.dropWhile (· = 0x20) |>.reverse

/-- `LibcaptionTsParser::decode_cea608_chars` (src/libcaption_compat.rs,
lines 400-435). -/
def lcDecode608 (d1 d2 : Nat) : Option (List Nat) :=
  let c1 := d1 &&& 0x7F
  let c2 := d2 &&& 0x7F
  if 0x10 ≤ c1 ∧ c1 ≤ 0x1F then none
  else
    let r1 : List Nat := if 0x20 ≤ c1 ∧ c1 ≤ 0x7F then [c1] else []
    let r := r1 ++ (if 0x20 ≤ c2 ∧ c2 ≤ 0x7F then [c2] else [])
    let t := trimSp r
    if t = [] ∨ t = [0x40] ∨ t = [0x2C] ∨ t = [0x2F] ∨ t = [0x20] then none
    else some r

/-- cc_data triplet loop of `LibcaptionTsParser::parse_cea708_data`
(src/libcaption_compat.rs, lines 343-362); recursion on the remaining
`cc_count` (at most 31). -/
def ccLoopF : Nat → List Nat → Nat → List Nat → Option (List Nat)
  | 0, _, _, acc => some acc
  | n+1, data, i, acc =>
    if i + 3 > data.length then some acc
    else do
      let b0 ← getB data i
      let b1 ← getB data (i+1)
      let b2 ← getB data (i+2)
      let acc2 :=
        if (b0 &&& 0x04 ≠ 0) ∧ (b0 &&& 0x03 ≤ 1) then
          if lcIsControl b1 b2 then acc
          else match lcDecode608 b1 b2 with
            | some t => acc ++ t
            | none => acc
        else acc
      ccLoopF n data (i+3) acc2

/-- `LibcaptionTsParser::parse_cea708_data` (src/libcaption_compat.rs,
lines 304-370).  The outer `Option` is the panic layer; the inner one is
the `Option<Vec<String>>` of the source. -/
def lcParseCea708 (data : List Nat) : Option (Option (List (List Nat))) := do
  if data.length < 8 then pure none
  else do
    let d0 ← getB data 0
    if d0 ≠ 0xB5 then pure none
    else if 3 + 4 > data.length ∨ subSlice data 3 4 ≠ [0x47, 0x41, 0x39, 0x34] then pure none
    else if 7 ≥ data.length then pure none
    else do
      let d7 ← getB data 7
      if d7 ≠ 0x03 then pure none
      else if 8 ≥ data.length then pure none
      else do
        let d8 ← getB data 8
        let ccCount := d8 &&& 0x1F
        let text ← ccLoopF ccCount data 10 []
        if text = [] then pure none else pure (some [text])

/-- SEI message loop of `LibcaptionTsParser::parse_sei_nalu`
(src/libcaption_compat.rs, lines 260-299).  `i` advances by at least 2
per iteration, so `length + 1` fuel dominates the loop.  The `u32`
accumulators wrap modulo 2^32 exactly as release-mode Rust does. -/
def seiLoopF : Nat → List Nat → Nat → List (List Nat) → Option (List (List Nat))
  | 0, _, _, acc => some acc
  | fuel+1, data, i, acc =>
    if i + 1 < data.length then do
      let k1 := ffRun (data.drop i)
      let i1 := i + k1
      if i1 ≥ data.length then pure acc
      else do
        let tb ← getB data i1
        let ptype := (255 * k1 + tb) % 2^32
        let i2 := i1 + 1
        let k2 := ffRun (data.drop i2)
        let i3 := i2 + k2
        if i3 ≥ data.length then pure acc
        else do
          let sb ← getB data i3
          let psz := (255 * k2 + sb) % 2^32
          let i4 := i3 + 1
          let acc2 ← if ptype = 4 ∧ psz > 0 ∧ i4 + psz ≤ data.length then do
              let payload := subSlice data i4 psz
              let r ← lcParseCea708 payload
              pure (match r with
                | some cs => acc ++ cs
                | none => acc)
            else pure acc
          seiLoopF fuel data (i4 + psz) acc2
    else pure acc

/-- `LibcaptionTsParser::parse_sei_nalu` (src/libcaption_compat.rs,
lines 255-302). -/
def lcParseSeiNalu (data : List Nat) : Option (Option (List (List Nat))) := do
  let caps ← seiLoopF (data.length + 1) data 0 []
  pure (if caps = [] then none else some caps)

/-- `LibcaptionTsParser::process_nalu` (src/libcaption_compat.rs,
lines 241-253). -/
def lcProcessNalu (nalu : List Nat) : Option (Option (List (List Nat))) := do
  if nalu = [] then pure none
  else do
    let h ← getB nalu 0
    if h &&& 0x1F = 6 then lcParseSeiNalu (nalu.drop 1)
    else pure none

/-- Caption collection over the framed NAL units (the decode half of the
`process_video_data` loop; decoding is stateless, so framing and
decoding commute with the interleaving of the source loop). -/
def lcCapsOfNalus : List (List Nat) → List (List Nat) → Option (List (List Nat))
  | [], acc => some acc
  | n :: rest, acc => do
    let r ← lcProcessNalu n
    lcCapsOfNalus rest (match r with
      | some cs => acc ++ cs
      | none => acc)

/-- `LibcaptionTsParser::process_video_data` (src/libcaption_compat.rs,
lines 175-212): append the chunk to the rolling buffer, frame NAL units,
decode them in order. -/
def lcProcessVideoData (st : LcState) (chunk : List Nat) : Option (LcState × List (List Nat)) := do
  let buf := st.data ++ chunk
  let r := lcScanNalus (buf.length + 1) buf
  let caps ← lcCapsOfNalus r.1 []
  pure ({ st with data := r.2 }, caps)

/-- Fuel-based splitting into 188-byte packets; the fuel dominates the
packet count (each step drops 188 bytes). -/
def lcPacketsF : Nat → List Nat → List (List Nat)
  | 0, _ => []
  | fuel+1, l =>
    if 188 ≤ l.length then l.take 188 :: lcPacketsF fuel (l.drop 188) else []

/-- The 188-byte packets of a segment, in order (the `i + 188 <= len`
stride loops of `parse_ts_file`; a trailing partial packet is ignored). -/
def lcPackets (l : List Nat) : List (List Nat) := lcPacketsF (l.length + 1) l

/-- Phase 1 of `LibcaptionTsParser::parse_ts_file` (src/libcaption_compat.rs,
lines 35-46): scan packets until the video PID is known; returns the
state and the unconsumed packets. -/
def lcPhase1 : LcState → List (List Nat) → Option (LcState × List (List Nat))
  | st, [] => some (st, [])
  | st, p :: ps =>
    if p.head? = some 0x47 then do
      let r ← lcParsePacket st p
      if r.1.ccpid.isSome then some (r.1, ps)
      else lcPhase1 r.1 ps
    else lcPhase1 st ps

/-- Phase 2 of `LibcaptionTsParser::parse_ts_file` (src/libcaption_compat.rs,
lines 54-71): extract captions, stopping after the first packet whose
processing yields a non-empty caption list (the early-termination
`break`). -/
def lcPhase2 : LcState → List (List Nat) → Option (List (List Nat))
  | _, [] => some []
  | st, p :: ps =>
    if p.head? = some 0x47 then do
      let r ← lcParsePacket st p
      match r.2 with
      | some videoData => do
        let q ← lcProcessVideoData r.1 videoData
        if q.2 = [] then lcPhase2 q.1 ps else some q.2
      | none => lcPhase2 r.1 ps
    else lcPhase2 st ps

/-- `LibcaptionTsParser::parse_ts_file` (src/libcaption_compat.rs,
lines 29-74) on a fresh parser, as `main.rs` invokes it per segment. -/
def lcParseTsFile (data : List Nat) : Option (List (List Nat)) := do
  let r ← lcPhase1 lcInit (lcPackets data)
  if r.1.ccpid = none then pure []
  else lcPhase2 r.1 r.2

/-- Modelled from the spec: phase 2 without the early-termination
`break` of src/libcaption_compat.rs line 64-66, so that the result is
the ordered concatenation of the captions of every video packet of the
segment, as section 4.D of the spec describes. -/
def lcPhase2Full : LcState → List (List Nat) → Option (List (List Nat))
  | _, [] => some []
  | st, p :: ps =>
    if p.head? = some 0x47 then do
      let r ← lcParsePacket st p
      match r.2 with
      | some videoData => do
        let q ← lcProcessVideoData r.1 videoData
        let rest ← lcPhase2Full q.1 ps
        pure (q.2 ++ rest)
      | none => lcPhase2Full r.1 ps
    else lcPhase2Full st ps

/-- Modelled from the spec: `parse_ts_file` with `lcPhase2Full` in place
of the early-terminating phase 2 (the caption list the spec sentence
describes: concatenation across all SEI messages and NAL units of the
segment). -/
def lcParseTsFileFull (data : List Nat) : Option (List (List Nat)) := do
  let r ← lcPhase1 lcInit (lcPackets data)
  if r.1.ccpid = none then pure []
  else lcPhase2Full r.1 r.2

/-- Chunked driving of the libcaption NAL scanner: fold
`process_video_data` over a list of payload chunks, keeping the state. -/
def lcFeedChunks : LcState → List (List Nat) → Option LcState
  | st, [] => some st
  | st, c :: cs => do
    let r ← lcProcessVideoData st c
    lcFeedChunks r.1 cs

/-- One push of the libcaption NAL scanner at the framing level: append
the chunk to the rolling buffer and frame the NAL units. -/
def lcScanStep (buf chunk : List Nat) : List Nat × List (List Nat) :=
  let b := buf ++ chunk
  let r := lcScanNalus (b.length + 1) b
  (r.2, r.1)

/-- NAL units produced when the chunks are pushed in order, starting
from an empty rolling buffer. -/
def lcScanChunksGo : List Nat → List (List Nat) → List (List Nat)
  | _, [] => []
  | buf, c :: cs =>
    let r := lcScanStep buf c
    r.2 ++ lcScanChunksGo r.1 cs

/-- The sequence of NAL units the libcaption scanner yields for a list
of input chunks fed in order to a fresh scanner. -/
def lcScanChunks (chunks : List (List Nat)) : List (List Nat) :=
  lcScanChunksGo [] chunks

/-- The SEI messages (payload type, payload size, payload offset) that
the loop of `parse_sei_nalu` walks over, extracted by the same index
arithmetic as `seiLoopF`. -/
def lcSeiMsgsF : Nat → List Nat → Nat → List (Nat × Nat × Nat)
  | 0, _, _ => []
  | fuel+1, data, i =>
    if i + 1 < data.length then
      let k1 := ffRun (data.drop i)
      let i1 := i + k1
      if i1 ≥ data.length then []
      else
        let tb := data.getD i1 0
        let ptype := (255 * k1 + tb) % 2^32
        let i2 := i1 + 1
        let k2 := ffRun (data.drop i2)
        let i3 := i2 + k2
        if i3 ≥ data.length then []
        else
          let sb := data.getD i3 0
          let psz := (255 * k2 + sb) % 2^32
          let i4 := i3 + 1
          (ptype, psz, i4) :: lcSeiMsgsF fuel data (i4 + psz)
    else []

/-- SEI message walk of `parse_sei_nalu` starting at offset 0. -/
def lcSeiMsgs (data : List Nat) : List (Nat × Nat × Nat) :=
  lcSeiMsgsF (data.length + 1) data 0

/-- A byte list with no H.264 start code: no position carries the
3-byte start code `00 00 01` (which also rules out the 4-byte code,
whose last three bytes form the 3-byte code). -/
def scFree (l : List Nat) : Prop :=
  ∀ i, i < l.length → ¬ ([0, 0, 1] <+: l.drop i)

instance (l : List Nat) : Decidable (scFree l) :=
  Nat.decidableBallLT l.length fun i _ => ¬ ([0, 0, 1] <+: l.drop i)

/-! ## MpegBitstream (src/mpeg_bitstream.rs) -/

/-- `MAX_NALU_SIZE` (src/mpeg_bitstream.rs, line 4). -/
def mbMax : Nat := 6 * 1024 * 1024

/-- State of `MpegBitstream` (src/mpeg_bitstream.rs). -/
structure MbState where
  buffer : List Nat
  streamType : Option Nat
deriving Repr, DecidableEq

/-- Bounded scan of `MpegBitstream::find_start_code` (src/mpeg_bitstream.rs,
lines 71-85): test positions `i, i+1, ...` for `cnt` steps (the Rust
loops run over `0..len.saturating_sub(4)` and `0..len.saturating_sub(3)`,
both exclusive upper bounds). -/
def mbScanCnt (pat l : List Nat) : Nat → Nat → Option Nat
  | _, 0 => none
  | i, cnt+1 =>
    if pat.isPrefixOf (l.drop i) then some i else mbScanCnt pat l (i+1) cnt

/-- `MpegBitstream::find_start_code` (src/mpeg_bitstream.rs, lines 71-85). -/
def mbFindStartCode (l : List Nat) : Option Nat :=
  match mbScanCnt [0, 0, 0, 1] l 0 (l.length - 4) with
  | some i => some i
  | none => mbScanCnt [0, 0, 1] l 0 (l.length - 3)

/-- NAL framing loop of `MpegBitstream::parse` (src/mpeg_bitstream.rs,
lines 51-66), at the level of the NAL units handed to `process_nalu`
(`nalu_end = start_pos + 4 + next_start` uses 4 unconditionally, as the
source does).  Each productive iteration drops at least 4 bytes. -/
def mbLoopF : Nat → List Nat → List (List Nat) × List Nat
  | 0, buf => ([], buf)
  | fuel+1, buf =>
    match mbFindStartCode buf with
    | none => ([], buf)
    | some sp =>
      match mbFindStartCode (buf.drop (sp + 4)) with
      | some next =>
        let nalu := subSlice buf (sp + 4) next
        let r := mbLoopF fuel (buf.drop (sp + 4 + next))
        (nalu :: r.1, r.2)
      | none => ([], buf)

/-- `MpegBitstream::parse` (src/mpeg_bitstream.rs, lines 33-69) at the
NAL-framing level: oversize reset, append, frame complete NAL units.
The per-NAL SEI decoding it goes on to perform is stateless and does not
touch the buffer. -/
def mbParse (st : MbState) (chunk : List Nat) : MbState × List (List Nat) :=
  let buf0 := if st.buffer.length + chunk.length > mbMax then [] else st.buffer
  let buf := buf0 ++ chunk
  let r := mbLoopF (buf.length + 1) buf
  ({ st with buffer := r.2 }, r.1)

/-! ## Cea608Decoder (src/cea608.rs) -/

/-- `Cea608Decoder::is_printable_basic` (src/cea608.rs, lines 85-88). -/
def cea608PrintableBasic (b : Nat) : Bool := 0x20 ≤ b ∧ b ≤ 0x7F

/-- `Cea608Decoder::is_special_character` (src/cea608.rs, lines 90-93). -/
def cea608IsSpecial (d1 d2 : Nat) : Bool := d1 = 0x11 ∧ 0x30 ≤ d2 ∧ d2 ≤ 0x3F

/-- `Cea608Decoder::is_extended_character` (src/cea608.rs, lines 118-121). -/
def cea608IsExtended (d1 d2 : Nat) : Bool :=
  (d1 = 0x12 ∨ d1 = 0x13) ∧ 0x20 ≤ d2 ∧ d2 ≤ 0x3F

/-- `Cea608Decoder::decode_special_character` (src/cea608.rs, lines
95-116), as Unicode code points. -/
def cea608Special (d2 : Nat) : Option Nat :=
  if d2 = 0x30 then some 0xAE
  else if d2 = 0x31 then some 0xB0
  else if d2 = 0x32 then some 0xBD
  else if d2 = 0x33 then some 0xBF
  else if d2 = 0x34 then some 0x2122
  else if d2 = 0x35 then some 0xA2
  else if d2 = 0x36 then some 0xA3
  else if d2 = 0x37 then some 0x266A
  else if d2 = 0x38 then some 0xE0
  else if d2 = 0x39 then some 0x20
  else if d2 = 0x3A then some 0xE8
  else if d2 = 0x3B then some 0xE2
  else if d2 = 0x3C then some 0xEA
  else if d2 = 0x3D then some 0xEE
  else if d2 = 0x3E then some 0xF4
  else if d2 = 0x3F then some 0xFB
  else none

/-- `Cea608Decoder::decode_extended_character` (src/cea608.rs, lines
123-194), as Unicode code points. -/
def cea608Ext (d1 d2 : Nat) : Option Nat :=
  if d1 = 0x12 then
    if d2 = 0x20 then some 0xC1 else if d2 = 0x21 then some 0xC9
    else if d2 = 0x22 then some 0xD3 else if d2 = 0x23 then some 0xDA
    else if d2 = 0x24 then some 0xDC else if d2 = 0x25 then some 0xFC
    else if d2 = 0x26 then some 0xB4 else if d2 = 0x27 then some 0xA1
    else if d2 = 0x28 then some 0x2A else if d2 = 0x29 then some 0x27
    else if d2 = 0x2A then some 0x2014 else if d2 = 0x2B then some 0xA9
    else if d2 = 0x2C then some 0x2120 else if d2 = 0x2D then some 0x2022
    else if d2 = 0x2E then some 0x201C else if d2 = 0x2F then some 0x201D
    else if d2 = 0x30 then some 0xC0 else if d2 = 0x31 then some 0xC2
    else if d2 = 0x32 then some 0xC7 else if d2 = 0x33 then some 0xC8
    else if d2 = 0x34 then some 0xCA else if d2 = 0x35 then some 0xCB
    else if d2 = 0x36 then some 0xEB else if d2 = 0x37 then some 0xCE
    else if d2 = 0x38 then some 0xCF else if d2 = 0x39 then some 0xEF
    else if d2 = 0x3A then some 0xD4 else if d2 = 0x3B then some 0xD9
    else if d2 = 0x3C then some 0xF9 else if d2 = 0x3D then some 0xDB
    else if d2 = 0x3E then some 0xAB else if d2 = 0x3F then some 0xBB
    else none
  else if d1 = 0x13 then
    if d2 = 0x20 then some 0xC3 else if d2 = 0x21 then some 0xE3
    else if d2 = 0x22 then some 0xCD else if d2 = 0x23 then some 0xCC
    else if d2 = 0x24 then some 0xEC else if d2 = 0x25 then some 0xD2
    else if d2 = 0x26 then some 0xF2 else if d2 = 0x27 then some 0xD5
    else if d2 = 0x28 then some 0xF5 else if d2 = 0x29 then some 0x7B
    else if d2 = 0x2A then some 0x7D else if d2 = 0x2B then some 0x5C
    else if d2 = 0x2C then some 0x5E else if d2 = 0x2D then some 0x5F
    else if d2 = 0x2E then some 0x7C else if d2 = 0x2F then some 0x7E
    else if d2 = 0x30 then some 0xC4 else if d2 = 0x31 then some 0xE4
    else if d2 = 0x32 then some 0xD6 else if d2 = 0x33 then some 0xF6
    else if d2 = 0x34 then some 0xDF else if d2 = 0x35 then some 0xA5
    else if d2 = 0x36 then some 0xA4 else if d2 = 0x37 then some 0xA6
    else if d2 = 0x38 then some 0xC5 else if d2 = 0x39 then some 0xE5
    else if d2 = 0x3A then some 0xD8 else if d2 = 0x3B then some 0xF8
    else if d2 = 0x3C then some 0x250C else if d2 = 0x3D then some 0x2510
    else if d2 = 0x3E then some 0x2514 else if d2 = 0x3F then some 0x2518
    else none
  else none

/-- `Cea608Decoder::decode_cea608_pair` (src/cea608.rs, lines 39-83):
note that it inspects the raw bytes, with no parity stripping. -/
def cea608DecodePair (d1 d2 : Nat) : Option (List Nat) :=
  let r1 : List Nat :=
    if cea608PrintableBasic d1 then [d1]
    else if cea608IsSpecial d1 d2 then
      match cea608Special d2 with
      | some c => [c]
      | none => []
    else if cea608IsExtended d1 d2 then
      match cea608Ext d1 d2 with
      | some c => [c]
      | none => []
    else []
  let r := r1 ++ (if cea608PrintableBasic d2 ∧ 0x20 ≤ d1 then [d2] else [])
  if r = [] then none else some r

/-! ## Cea708Parser (src/cea708.rs) -/

/-- `CaptionData` (src/cea708.rs, lines 12-17). -/
structure CaptionData where
  ccValid : Bool
  ccType : Nat
  ccData1 : Nat
  ccData2 : Nat
deriving Repr, DecidableEq

/-- cc_data loop of `Cea708Parser::parse_user_data` (src/cea708.rs,
lines 95-122); every read lies below the `i + 3 ≤ len` guard, so the
total `getD` reads cannot go out of bounds. -/
def cea708TripletsF : Nat → List Nat → Nat → List CaptionData → List CaptionData
  | 0, _, _, acc => acc
  | n+1, data, i, acc =>
    if i + 3 > data.length then acc
    else
      let b0 := data.getD i 0
      let acc2 :=
        if b0 &&& 0x04 ≠ 0 then
          acc ++ [⟨true, b0 &&& 0x03, data.getD (i+1) 0, data.getD (i+2) 0⟩]
        else acc
      cea708TripletsF n data (i+3) acc2

/-- `Cea708Parser::parse_user_data` (src/cea708.rs, lines 26-127).  The
source checks the `GA94` identifier at offset 1 (it never actually skips
the two provider-code bytes, despite its comment) and reads the flag
byte at offset 6; all reads are under the `len ≥ 8` guard. -/
def cea708ParseUserData (data : List Nat) : List CaptionData :=
  if data.length < 8 then []
  else if data.getD 0 0 ≠ 0xB5 then []
  else if 1 + 6 > data.length then []
  else if subSlice data 1 4 ≠ [0x47, 0x41, 0x39, 0x34] then []
  else if data.getD 5 0 ≠ 0x03 then []
  else if 6 ≥ data.length then []
  else
    let flags := data.getD 6 0
    let ccCount := flags &&& 0x1F
    if flags &&& 0x40 = 0 then []
    else if 7 ≥ data.length then []
    else cea708TripletsF ccCount data 8 []

/-! ## CaptionDetector (src/caption.rs) -/

/-- `u8::saturating_add`. -/
def satAdd8 (a b : Nat) : Nat := min (a + b) 255

/-- Accumulating walk of `CaptionDetector::read_sei_type`
(src/caption.rs, lines 153-168): saturating `u8` sum of the `0xFF`
chain plus the terminating byte, with the number of bytes consumed. -/
def capSeiTypeGo : List Nat → Nat → Nat → Nat × Nat
  | [], t, c => (t, c)
  | b :: rest, t, c =>
    if b = 255 then capSeiTypeGo rest (satAdd8 t 255) (c+1)
    else (satAdd8 t b, c+1)

/-- `CaptionDetector::read_sei_type` (src/caption.rs, lines 153-168). -/
def capSeiType (l : List Nat) : Nat × Nat := capSeiTypeGo l 0 0

/-- Accumulating walk of `CaptionDetector::read_sei_size`
(src/caption.rs, lines 170-185): saturating `usize` sum, modelled by
`Nat` addition. -/
def capSeiSizeGo : List Nat → Nat → Nat → Nat × Nat
  | [], s, c => (s, c)
  | b :: rest, s, c =>
    if b = 255 then capSeiSizeGo rest (s + 255) (c+1)
    else (s + b, c+1)

/-- `CaptionDetector::read_sei_size` (src/caption.rs, lines 170-185). -/
def capSeiSize (l : List Nat) : Nat × Nat := capSeiSizeGo l 0 0

/-- `CaptionDetector::decode_cea608_chars` (src/caption.rs, lines
245-274): push each byte in `0x20..=0x7F` whose char is ASCII and not a
control character; `0x7F` is the one control character in that range. -/
def capDecodeChars (d1 d2 : Nat) : Option (List Nat) :=
  let r1 : List Nat := if 0x20 ≤ d1 ∧ d1 ≤ 0x7F ∧ d1 ≠ 0x7F then [d1] else []
  let r := r1 ++ (if 0x20 ≤ d2 ∧ d2 ≤ 0x7F ∧ d2 ≠ 0x7F then [d2] else [])
  if r = [] then none else some r

/-- UTF-8 continuation byte. -/
def utf8Cont (b : Nat) : Bool := 0x80 ≤ b ∧ b ≤ 0xBF

/-- UTF-8 validity (`std::str::from_utf8` succeeding), by the standard
byte-level table; fuel dominates the length. -/
def utf8ValidF : Nat → List Nat → Bool
  | 0, l => l = []
  | _+1, [] => true
  | fuel+1, b :: rest =>
    if b ≤ 0x7F then utf8ValidF fuel rest
    else if 0xC2 ≤ b ∧ b ≤ 0xDF then
      match rest with
      | c1 :: r2 => utf8Cont c1 && utf8ValidF fuel r2
      | [] => false
    else if b = 0xE0 then
      match rest with
      | c1 :: c2 :: r2 =>
        decide (0xA0 ≤ c1 ∧ c1 ≤ 0xBF) && utf8Cont c2 && utf8ValidF fuel r2
      | _ => false
    else if 0xE1 ≤ b ∧ b ≤ 0xEC then
      match rest with
      | c1 :: c2 :: r2 => utf8Cont c1 && utf8Cont c2 && utf8ValidF fuel r2
      | _ => false
    else if b = 0xED then
      match rest with
      | c1 :: c2 :: r2 =>
        decide (0x80 ≤ c1 ∧ c1 ≤ 0x9F) && utf8Cont c2 && utf8ValidF fuel r2
      | _ => false
    else if 0xEE ≤ b ∧ b ≤ 0xEF then
      match rest with
      | c1 :: c2 :: r2 => utf8Cont c1 && utf8Cont c2 && utf8ValidF fuel r2
      | _ => false
    else if b = 0xF0 then
      match rest with
      | c1 :: c2 :: c3 :: r2 =>
        decide (0x90 ≤ c1 ∧ c1 ≤ 0xBF) && utf8Cont c2 && utf8Cont c3 && utf8ValidF fuel r2
      | _ => false
    else if 0xF1 ≤ b ∧ b ≤ 0xF3 then
      match rest with
      | c1 :: c2 :: c3 :: r2 =>
        utf8Cont c1 && utf8Cont c2 && utf8Cont c3 && utf8ValidF fuel r2
      | _ => false
    else if b = 0xF4 then
      match rest with
      | c1 :: c2 :: c3 :: r2 =>
        decide (0x80 ≤ c1 ∧ c1 ≤ 0x8F) && utf8Cont c2 && utf8Cont c3 && utf8ValidF fuel r2
      | _ => false
    else false

/-- `std::str::from_utf8(data).is_ok()`. -/
def utf8Valid (l : List Nat) : Bool := utf8ValidF (l.length + 1) l

/-- `chunks_exact(2)` pair-decoding loop of
`CaptionDetector::parse_raw_caption_data` (src/caption.rs, lines
281-287); a trailing odd byte is ignored. -/
def capPairsGo : List Nat → List Nat → List Nat
  | a :: b :: rest, acc =>
    capPairsGo rest (match capDecodeChars a b with
      | some t => acc ++ t
      | none => acc)
  | _, acc => acc

/-- `CaptionDetector::parse_raw_caption_data` (src/caption.rs, lines
276-301).  On UTF-8-valid input, the kept characters (`is_ascii` and
not `is_control`) are exactly the bytes in `0x20..=0x7E`, since in
valid UTF-8 every byte below `0x80` is a one-byte character. -/
def capParseRaw (data : List Nat) : List Nat :=
  let caption1 := capPairsGo data []
  let caption2 :=
    if utf8Valid data then
      let printable := data.filter (fun b => decide (0x20 ≤ b ∧ b ≤ 0x7E))
      if printable ≠ [] ∧ printable.length > 2 then caption1 ++ printable
      else caption1
    else caption1
  trimSp caption2

/-- cc_data loop of `CaptionDetector::parse_cea_608_708_data`
(src/caption.rs, lines 220-240); the `i + 2 ≥ len` break keeps every
`getD` read in bounds. -/
def capTripletLoopF : Nat → List Nat → Nat → List Nat → List Nat
  | 0, _, _, acc => acc
  | n+1, data, i, acc =>
    if i + 2 ≥ data.length then acc
    else
      let b0 := data.getD i 0
      let acc2 :=
        if (b0 &&& 0x04 ≠ 0) ∧ (b0 &&& 0x03 ≤ 3) then
          match capDecodeChars (data.getD (i+1) 0) (data.getD (i+2) 0) with
          | some t => acc ++ t
          | none => acc
        else acc
      capTripletLoopF n data (i+3) acc2

/-- `CaptionDetector::parse_cea_608_708_data` (src/caption.rs, lines
187-243).  Note: this path checks `GA94` at offset 0 and falls back to
`parse_raw_caption_data` on mismatch. -/
def capParseCea (data : List Nat) : List Nat :=
  if data.length < 8 then []
  else if subSlice data 0 4 ≠ [0x47, 0x41, 0x39, 0x34] then capParseRaw data
  else if data.getD 4 0 ≠ 0x03 then []
  else if 5 ≥ data.length then []
  else
    let ccCount := data.getD 5 0 &&& 0x1F
    trimSp (capTripletLoopF ccCount data 6 [])

/-- SEI message loop of `CaptionDetector::extract_captions_from_sei`
(src/caption.rs, lines 101-151).  The three `sei_type` branches of the
source (type 4, type 5, any other type) perform the identical call to
`parse_cea_608_708_data`, so no type dispatch remains after
transcription.  `i` advances by at least 2 per iteration. -/
def capSeiLoopF : Nat → List Nat → Nat → List (List Nat) → List (List Nat)
  | 0, _, _, acc => acc
  | fuel+1, nalu, i, acc =>
    if i < nalu.length then
      let tr := capSeiType (nalu.drop i)
      let i2 := i + tr.2
      if i2 ≥ nalu.length then acc
      else
        let sr := capSeiSize (nalu.drop i2)
        let i3 := i2 + sr.2
        if i3 + sr.1 > nalu.length then acc
        else
          let seiData := subSlice nalu i3 sr.1
          let text := capParseCea seiData
          let acc2 := if text ≠ [] then acc ++ [text] else acc
          capSeiLoopF fuel nalu (i3 + sr.1) acc2
    else acc

/-- `CaptionDetector::extract_captions_from_sei` (src/caption.rs, lines
101-151), starting at offset 1 (after the NAL header byte). -/
def capExtractFromSei (nalu : List Nat) : List (List Nat) :=
  capSeiLoopF (nalu.length + 1) nalu 1 []

/-! ## Concrete example inputs for the counterexamples and witnesses -/

/-- The 16-entry special character table of spec section 6, in selector
order `0x30..0x3F`. -/
def cea608SpecialTable : List Nat :=
  [0xAE, 0xB0, 0xBD, 0xBF, 0x2122, 0xA2, 0xA3, 0x266A,
   0xE0, 0x20, 0xE8, 0xE2, 0xEA, 0xEE, 0xF4, 0xFB]

/-- A PAT packet announcing PMT PID `0x20`. -/
def exPat : List Nat :=
  [0x47, 0x40, 0x00, 0x10, 0x00] ++ List.replicate 10 0 ++
  [0x00, 0x20] ++ List.replicate 171 0

/-- A PMT packet with a single H.264 triple with elementary PID `0x100`. -/
def exPmt : List Nat :=
  [0x47, 0x40, 0x20, 0x10, 0x00, 0x02, 0x00, 18, 0, 0, 0x01, 0, 0, 0, 0,
   0x00, 0x00, 0x1B, 0x01, 0x00, 0x00, 0x00] ++ List.replicate 166 0

/-- A PMT packet with two H.264 triples, elementary PIDs `0x100` then
`0x200`. -/
def exPmtTwo : List Nat :=
  [0x47, 0x40, 0x20, 0x10, 0x00, 0x02, 0x00, 23, 0, 0, 0x01, 0, 0, 0, 0,
   0x00, 0x00, 0x1B, 0x01, 0x00, 0x00, 0x00, 0x1B, 0x02, 0x00, 0x00, 0x00] ++
  List.replicate 161 0

/-- A later PMT packet with a single H.264 triple with elementary PID
`0x300`. -/
def exPmtB : List Nat :=
  [0x47, 0x40, 0x20, 0x10, 0x00, 0x02, 0x00, 18, 0, 0, 0x01, 0, 0, 0, 0,
   0x00, 0x00, 0x1B, 0x03, 0x00, 0x00, 0x00] ++ List.replicate 166 0

/-- A video packet on PID `0x100` (PUSI clear) whose payload carries one
SEI NAL unit with one `user_data_registered` message: a valid `GA94`
envelope with one valid CEA-608 triplet carrying the two bytes `a b`. -/
def exVid (a b : Nat) : List Nat :=
  [0x47, 0x01, 0x00, 0x10] ++
  [0, 0, 0, 1, 0x06, 0x04, 13, 0xB5, 0, 0, 0x47, 0x41, 0x39, 0x34,
   0x03, 0x41, 0x00, 0xFC, a, b] ++ List.replicate 164 0

/-- A segment with two caption-bearing video packets: `HI` then `YO`. -/
def exSegTwo : List Nat := exPat ++ exPmt ++ exVid 0x48 0x49 ++ exVid 0x59 0x4F

/-- A segment with only the `YO` video packet. -/
def exSegYo : List Nat := exPat ++ exPmt ++ exVid 0x59 0x4F

/-- A `GA94` SEI payload (libcaption layout) whose flag byte at offset 8
is `0x01`: `process_cc_data_flag` (bit 6) clear, `cc_count` 1, followed
by one valid CEA-608 triplet carrying `HI`. -/
def exCeaNoFlag : List Nat :=
  [0xB5, 0, 0, 0x47, 0x41, 0x39, 0x34, 0x03, 0x01, 0, 0xFC, 0x48, 0x49]

/-- The same payload with `process_cc_data_flag` set (flag byte `0x41`). -/
def exCeaFlag : List Nat :=
  [0xB5, 0, 0, 0x47, 0x41, 0x39, 0x34, 0x03, 0x41, 0, 0xFC, 0x48, 0x49]

/-- A `cea708.rs`-layout user-data payload with the flag byte at offset
6 equal to `0x01` (`process_cc_data_flag` clear). -/
def exCea708NoFlag : List Nat :=
  [0xB5, 0x47, 0x41, 0x39, 0x34, 0x03, 0x01, 0x00, 0xFC, 72, 73]

/-- An SEI NAL unit whose single message has payload type 5
(`user_data_unregistered`), carrying a `caption.rs`-layout `GA94`
payload with one valid triplet `HI`. -/
def exSeiType5 : List Nat :=
  [0x06, 0x05, 0x0A] ++
  [0x47, 0x41, 0x39, 0x34, 0x03, 0x01, 0x04, 0x48, 0x49, 0x00]

/-- A sync packet with PID 0 and no payload flag: `parse_packet` falls
through every branch and leaves the state unchanged. -/
def exNullPkt : List Nat := [0x47, 0x00, 0x00, 0x00] ++ List.replicate 184 0

/-! ## Theorems -/

set_option maxRecDepth 100000

theorem getB_isSome {l : List Nat} {i : Nat} (h : i < l.length) :
    (getB l i).isSome := by
  rw [getB, Option.isSome_iff_ne_none]
  simp [List.get?_eq_none]
  omega

theorem sliceFrom_isSome {l : List Nat} {a : Nat} (h : a ≤ l.length) :
    (sliceFrom l a).isSome := by
  simp [sliceFrom, h]

theorem bind_isSome_of {α β : Type} {x : Option α} {f : α → Option β}
    (hx : x.isSome) (hf : ∀ a, (f a).isSome) : (x.bind f).isSome := by
  cases x with
  | none => simp at hx
  | some a => exact hf a

/-- `C8`: captions are produced by `parse_cea708_data` only when, in
order, byte 0 is `0xB5`, bytes 3..6 are ASCII `GA94`, and byte 7 is
`0x03`; any mismatch yields no captions for that SEI payload. -/
theorem c8_envelope_gate (data : List Nat) (r : List (List Nat))
    (h : lcParseCea708 data = some (some r)) :
    8 ≤ data.length ∧ getB data 0 = some 0xB5 ∧
    subSlice data 3 4 = [0x47, 0x41, 0x39, 0x34] ∧ getB data 7 = some 0x03 := by
  unfold lcParseCea708 at h
  split at h
  · simp [pure] at h
  · rename_i hlen
    obtain ⟨d0, hd0, h⟩ := Option.bind_eq_some.mp h
    split at h
    · simp [pure] at h
    · split at h
      · simp [pure] at h
      · split at h
        · simp [pure] at h
        · rename_i hne hga h7
          obtain ⟨d7, hd7, h⟩ := Option.bind_eq_some.mp h
          split at h
          · simp [pure] at h
          · rename_i h73
            push_neg at hne hga h73
            refine ⟨by omega, ?_, hga.2, ?_⟩
            · rw [hd0, hne]
            · rw [hd7, h73]

theorem c8_envelope_gate_witness :
    lcParseCea708 exCeaFlag = some (some [[0x48, 0x49]]) ∧
    (8 ≤ exCeaFlag.length ∧ getB exCeaFlag 0 = some 0xB5 ∧
      subSlice exCeaFlag 3 4 = [0x47, 0x41, 0x39, 0x34] ∧
      getB exCeaFlag 7 = some 0x03) :=
  ⟨by decide, c8_envelope_gate exCeaFlag [[0x48, 0x49]] (by decide)⟩

/-- `C5` counterexample: the pair `(0x11, 0xB7)` has parity-stripped
form `(0x11, 0x37)`, a special-character selector whose table entry is
the music note, yet both CEA-608 decoders of the source return no
character for it (and `Cea608Decoder` returns `none` even for any
parity-set selector, since it never strips parity). -/
theorem c5_parity_special_counterexample :
    cea608DecodePair 0x11 0xB7 = none ∧ lcDecode608 0x11 0xB7 = none ∧
    0x11 &&& 0x7F = 0x11 ∧ 0xB7 &&& 0x7F = 0x37 ∧
    cea608Special 0x37 = some 0x266A ∧
    cea608DecodePair 0x11 0xB7 ≠ some [0x266A] := by decide

/-- `C5` amended: `Cea608Decoder::decode_cea608_pair` emits the
corresponding entry of the 16-entry special table exactly for the raw
(not parity-stripped) selector bytes `c1 = 0x11`, `c2` in
`0x30..0x3F`; the parity-set forms decode to nothing, and the
libcaption-compat decoder of the segment pipeline never emits special
characters at all. -/
theorem c5_raw_special_table : ∀ c2 : Fin 256, 0x30 ≤ c2.val → c2.val ≤ 0x3F →
    cea608DecodePair 0x11 c2.val =
      some [cea608SpecialTable.getD (c2.val - 0x30) 0] := by decide

theorem c5_raw_special_table_witness :
    cea608DecodePair 0x11 0x37 = some [cea608SpecialTable.getD (0x37 - 0x30) 0] :=
  c5_raw_special_table ⟨0x37, by decide⟩ (by decide) (by decide)

/-- `C6` counterexample: a `GA94` payload whose flags byte (offset 8)
has `process_cc_data_flag` (bit 6) clear is still decoded by the
segment pipeline: `parse_cea708_data` never reads the flag and produces
the caption `HI`. -/
theorem c6_flag_ignored_counterexample :
    lcParseCea708 exCeaNoFlag = some (some [[0x48, 0x49]]) ∧
    (exCeaNoFlag.getD 8 0) &&& 0x40 = 0 := by decide

/-- `C6` amended: the `Cea708Parser` of `cea708.rs` does abort when
`process_cc_data_flag` is clear (its flags byte sits at offset 6 of its
layout): whenever bit 6 of that byte is clear, `parse_user_data`
returns no caption data; the libcaption-compat path that the segment
pipeline actually runs ignores the flag. -/
theorem c6_cea708_flag_abort (data : List Nat)
    (h : (data.getD 6 0) &&& 0x40 = 0) :
    cea708ParseUserData data = [] := by
  unfold cea708ParseUserData
  repeat' split
  all_goals first
    | rfl
    | simp_all

theorem c6_cea708_flag_abort_witness :
    (exCea708NoFlag.getD 6 0) &&& 0x40 = 0 ∧
    cea708ParseUserData exCea708NoFlag = [] :=
  ⟨by decide, c6_cea708_flag_abort exCea708NoFlag (by decide)⟩

/-- `C2` counterexample: feeding the libcaption NAL scanner the chunks
`[0,0,1,0x41]` then `[0x42]` yields the single truncated NAL `[0x41]`,
while feeding the concatenation in one call yields `[0x41, 0x42]`: a
NAL unit whose bytes straddle two chunks is not produced identical to
its contiguous form, because each call emits the tail after the last
start code and clears the buffer. -/
theorem c2_chunking_counterexample :
    lcScanChunks [[0, 0, 1, 0x41], [0x42]] = [[0x41]] ∧
    lcScanChunks [[0, 0, 1, 0x41] ++ [0x42]] = [[0x41, 0x42]] ∧
    ([[0x41]] : List (List Nat)) ≠ [[0x41, 0x42]] := by decide

/-- `C9` counterexample: `CaptionDetector::extract_captions_from_sei`
passes an SEI message of payload type 5 to the CEA decode path and
produces the caption `HI` from it, so messages with
`payload_type ≠ 4` are not discarded on that path. -/
theorem c9_nontype4_decoded_counterexample :
    capExtractFromSei exSeiType5 = [[0x48, 0x49]] ∧
    (capSeiType (exSeiType5.drop 1)).1 = 5 ∧ (5 : Nat) ≠ 4 := by decide

/-- `C4` counterexample: within one current PMT section holding two
H.264 triples (elementary PIDs `0x100` then `0x200`) the recorded video
PID ends at the last matching triple `0x200`, not the first; and a
later PMT packet (PID `0x300` triple) overwrites it again, so the video
PID is not learnt exactly once. -/
theorem c4_video_pid_relearn_counterexample :
    (do
      let r1 ← lcParsePacket lcInit exPat
      let r2 ← lcParsePacket r1.1 exPmtTwo
      let r3 ← lcParsePacket r2.1 exPmtB
      pure (r2.1.ccpid, r3.1.ccpid) : Option (Option Nat × Option Nat)) =
        some (some 0x200, some 0x300) ∧
    (0x200 : Nat) ≠ 0x100 ∧ (0x300 : Nat) ≠ 0x200 := by decide

/-- `C1` counterexample: a segment whose video stream carries the
decodable captions `HI` and then `YO` in two packets returns only
`[HI]` from `parse_ts_file` (the early-termination break at
src/libcaption_compat.rs lines 63-66), while the ordered concatenation
over all SEI messages and NAL units of the segment is `[HI, YO]`. -/
theorem c1_early_exit_counterexample :
    lcParseTsFile exSegTwo = some [[0x48, 0x49]] ∧
    lcParseTsFileFull exSegTwo = some [[0x48, 0x49], [0x59, 0x4F]] ∧
    lcParseTsFile exSegYo = some [[0x59, 0x4F]] := by decide

/-- `C10`: the segment pipeline is deterministic: the embedding is a
pure function of the segment bytes, with all per-segment state created
afresh in `lcInit`, so two runs on equal byte blobs return equal
caption lists. -/
theorem c10_deterministic (d1 d2 : List Nat) (h : d1 = d2) :
    lcParseTsFile d1 = lcParseTsFile d2 := by rw [h]

theorem c10_deterministic_witness :
    lcParseTsFile exSegYo = lcParseTsFile exSegYo :=
  c10_deterministic exSegYo exSegYo rfl







theorem scFree_append_left {l1 l2 : List Nat} (h : scFree (l1 ++ l2)) : scFree l1 := by
  intro i hi hp
  apply h i (by simp; omega)
  rw [List.drop_append_of_le_length (Nat.le_of_lt hi)]
  exact hp.trans (List.prefix_append _ l2)

theorem scFree_append_right {l1 l2 : List Nat} (h : scFree (l1 ++ l2)) : scFree l2 := by
  intro i hi hp
  apply h (l1.length + i) (by simp; omega)
  rw [List.drop_append]
  exact hp

theorem scFree_tail {a : Nat} {l : List Nat} (h : scFree (a :: l)) : scFree l := by
  intro i hi hp
  apply h (i + 1) (by simp; omega)
  rw [List.drop_succ_cons]
  exact hp

theorem findPat3_none {l : List Nat} (h : scFree l) : findPat [0, 0, 1] l = none := by
  induction l with
  | nil => rfl
  | cons a rest ih =>
    have h0 : ([0, 0, 1].isPrefixOf (a :: rest)) = false := by
      rw [Bool.eq_false_iff, Ne, List.isPrefixOf_iff_prefix]
      exact h 0 (by simp)
    rw [findPat, h0]
    simp only [Bool.false_eq_true, if_false]
    rw [ih (scFree_tail h)]
    rfl

theorem findPat4_none {l : List Nat} (h : scFree l) : findPat [0, 0, 0, 1] l = none := by
  induction l with
  | nil => rfl
  | cons a rest ih =>
    have h0 : ([0, 0, 0, 1].isPrefixOf (a :: rest)) = false := by
      rw [Bool.eq_false_iff, Ne, List.isPrefixOf_iff_prefix]
      intro hp
      obtain ⟨t, ht⟩ := hp
      simp only [List.cons_append, List.nil_append, List.cons.injEq] at ht
      obtain ⟨ha, hrest⟩ := ht
      apply h 1 (by rw [← hrest]; simp)
      rw [show (1 : Nat) = 0 + 1 from rfl, List.drop_succ_cons, List.drop_zero, ← hrest]
      exact ⟨t, rfl⟩
    rw [findPat, h0]
    simp only [Bool.false_eq_true, if_false]
    rw [ih (scFree_tail h)]
    rfl

theorem lcFind_none {l : List Nat} (h : scFree l) : lcFindStartCode l = none := by
  rw [lcFindStartCode, findPat4_none h, findPat3_none h]

theorem lcScanNalus_of_none {buf : List Nat} (fuel : Nat)
    (h : lcFindStartCode buf = none) : lcScanNalus fuel buf = ([], buf) := by
  cases fuel with
  | zero => rfl
  | succ f => rw [lcScanNalus, h]

theorem lcScanChunksGo_of_scFree : ∀ (chunks : List (List Nat)) (buf : List Nat),
    scFree (buf ++ chunks.flatten) → lcScanChunksGo buf chunks = [] := by
  intro chunks
  induction chunks with
  | nil => intro buf _; rfl
  | cons c cs ih =>
    intro buf h
    have hsc : scFree ((buf ++ c) ++ cs.flatten) := by
      rw [List.append_assoc]
      simpa using h
    have hfind : lcFindStartCode (buf ++ c) = none :=
      lcFind_none (scFree_append_left hsc)
    rw [lcScanChunksGo, lcScanStep]
    simp only [lcScanNalus_of_none _ hfind]
    simpa using ih (buf ++ c) hsc



/-- `C2` amended: chunked and single-call feeding of the libcaption NAL
scanner agree when the concatenated input contains no start code (both
yield no NAL units); in general the equivalence fails, because every
call flushes the tail after the last start code (see the
counterexample). -/
theorem c2_no_start_code_equiv (chunks : List (List Nat))
    (h : scFree chunks.flatten) :
    lcScanChunks chunks = [] ∧ lcScanChunks [chunks.flatten] = [] := by
  constructor
  · apply lcScanChunksGo_of_scFree
    simpa using h
  · apply lcScanChunksGo_of_scFree
    simpa using h

theorem c2_no_start_code_equiv_witness :
    scFree ([[0x41], [0x41, 0x41]] : List (List Nat)).flatten ∧
    (lcScanChunks [[0x41], [0x41, 0x41]] = [] ∧
      lcScanChunks [([[0x41], [0x41, 0x41]] : List (List Nat)).flatten] = []) :=
  ⟨by unfold scFree; decide,
    c2_no_start_code_equiv [[0x41], [0x41, 0x41]] (by unfold scFree; decide)⟩

theorem scFree_replicate65 (n : Nat) : scFree (List.replicate n 65) := by
  intro i hi hp
  obtain ⟨t, ht⟩ := hp
  rw [List.drop_replicate] at ht
  simp only [List.length_replicate] at hi
  rw [show n - i = (n - i - 1) + 1 by omega, List.replicate_succ] at ht
  simp only [List.cons_append, List.nil_append, List.cons.injEq] at ht
  omega

theorem lcProcessVideoData_garbage (st : LcState) (c : List Nat)
    (h : scFree (st.data ++ c)) :
    lcProcessVideoData st c = some ({ st with data := st.data ++ c }, []) := by
  unfold lcProcessVideoData
  simp only [lcScanNalus_of_none _ (lcFind_none h)]
  rfl

theorem lcFeedChunks_garbage : ∀ (K j : Nat),
    lcFeedChunks { lcInit with data := List.replicate j 65 }
      (List.replicate K (List.replicate 184 65)) =
      some { lcInit with data := List.replicate (j + 184 * K) 65 } := by
  intro K
  induction K with
  | zero => intro j; simp [lcFeedChunks, List.replicate]
  | succ k ih =>
    intro j
    rw [List.replicate_succ, lcFeedChunks]
    have hb : List.replicate j 65 ++ List.replicate 184 65 =
        List.replicate (j + 184) (65 : Nat) := (List.replicate_add j 184 65).symm
    have h1 := lcProcessVideoData_garbage { lcInit with data := List.replicate j 65 }
      (List.replicate 184 65)
      (by rw [show ({ lcInit with data := List.replicate j 65 } : LcState).data =
            List.replicate j 65 from rfl, hb]; exact scFree_replicate65 _)
    rw [h1]
    show lcFeedChunks _ _ = _
    rw [show ({ lcInit with data := List.replicate j 65 } : LcState).data ++
        List.replicate 184 65 = List.replicate (j + 184) (65 : Nat) from hb]
    have harith : j + 184 * (k + 1) = (j + 184) + 184 * k := by ring
    rw [harith]
    exact ih (j + 184)

/-- `C3` counterexample: the NAL scanner the segment pipeline actually
uses (`process_video_data`) applies no bound at all: feeding it 34193
TS-payload-sized chunks (184 bytes each, about 6 MiB of the 10 MiB the
scenario feeds, all `0x41`, no start code) grows its rolling buffer to
6291512 bytes, exceeding the 6 MiB cap the claim asserts. -/
theorem c3_buffer_unbounded_counterexample :
    (lcFeedChunks lcInit (List.replicate 34193 (List.replicate 184 65))).map
        (fun st => st.data.length) = some 6291512 ∧
    mbMax < 6291512 ∧ (34193 : Nat) * 184 ≤ 10 * 1024 * 1024 := by
  have h1 := lcFeedChunks_garbage 34193 0
  have h0 : ({ lcInit with data := List.replicate 0 65 } : LcState) = lcInit := rfl
  rw [h0] at h1
  rw [h1]
  refine ⟨?_, by norm_num [mbMax], by norm_num⟩
  simp only [Option.map_some, List.length_replicate]
  norm_num

theorem mbScanCnt3_none {l : List Nat} (h : scFree l) :
    ∀ (cnt i : Nat), mbScanCnt [0, 0, 1] l i cnt = none := by
  intro cnt
  induction cnt with
  | zero => intro i; rfl
  | succ c ih =>
    intro i
    rw [mbScanCnt]
    have h0 : ([0, 0, 1].isPrefixOf (l.drop i)) = false := by
      rw [Bool.eq_false_iff, Ne, List.isPrefixOf_iff_prefix]
      rcases Nat.lt_or_ge i l.length with hlt | hge
      · exact h i hlt
      · rw [List.drop_eq_nil_of_le hge]
        intro hp
        obtain ⟨t, ht⟩ := hp
        simp at ht
    rw [h0]
    simp only [Bool.false_eq_true, if_false]
    exact ih (i + 1)

theorem mbScanCnt4_none {l : List Nat} (h : scFree l) :
    ∀ (cnt i : Nat), mbScanCnt [0, 0, 0, 1] l i cnt = none := by
  intro cnt
  induction cnt with
  | zero => intro i; rfl
  | succ c ih =>
    intro i
    rw [mbScanCnt]
    have h0 : ([0, 0, 0, 1].isPrefixOf (l.drop i)) = false := by
      rw [Bool.eq_false_iff, Ne, List.isPrefixOf_iff_prefix]
      intro hp
      obtain ⟨t, ht⟩ := hp
      have hlen : i + 4 ≤ l.length := by
        have := congrArg List.length ht
        simp [List.length_drop] at this
        omega
      apply h (i + 1) (by omega)
      rw [show i + 1 = i + 1 from rfl, ← List.drop_drop]
      rw [← ht]
      exact ⟨t, by simp⟩
    rw [h0]
    simp only [Bool.false_eq_true, if_false]
    exact ih (i + 1)

theorem mbFind_none {l : List Nat} (h : scFree l) : mbFindStartCode l = none := by
  rw [mbFindStartCode, mbScanCnt4_none h, mbScanCnt3_none h]

theorem mbLoopF_of_none {buf : List Nat} (fuel : Nat)
    (h : mbFindStartCode buf = none) : mbLoopF fuel buf = ([], buf) := by
  cases fuel with
  | zero => rfl
  | succ f => rw [mbLoopF, h]

/-- `C3` amended: the `MpegBitstream` scanner (the only one with the 6
MiB guard) clears its buffer before appending whenever the append would
exceed `MAX_NALU_SIZE`; hence for chunks of at most 6 MiB the buffer
stays at most 6 MiB after every `parse` call, and a start-code-free
input yields no NAL units and no error.  The libcaption-compat scanner
of the segment pipeline has no such bound (see the counterexample). -/
theorem c3_mb_buffer_bound (st : MbState) (chunk : List Nat)
    (h1 : st.buffer.length ≤ mbMax) (h2 : chunk.length ≤ mbMax)
    (h3 : scFree (st.buffer ++ chunk)) :
    (mbParse st chunk).1.buffer.length ≤ mbMax ∧ (mbParse st chunk).2 = [] := by
  unfold mbParse
  split
  · rename_i hcap
    have hc : scFree (([] : List Nat) ++ chunk) := by
      simpa using scFree_append_right h3
    simp only [mbLoopF_of_none _ (mbFind_none hc)]
    simpa using h2
  · rename_i hcap
    simp only [mbLoopF_of_none _ (mbFind_none h3)]
    simp only [List.length_append] at hcap ⊢
    refine ⟨by omega, trivial⟩

theorem c3_mb_buffer_bound_witness :
    ((⟨[], none⟩ : MbState).buffer.length ≤ mbMax ∧ ([65] : List Nat).length ≤ mbMax ∧
      scFree ((⟨[], none⟩ : MbState).buffer ++ [65])) ∧
    ((mbParse ⟨[], none⟩ [65]).1.buffer.length ≤ mbMax ∧ (mbParse ⟨[], none⟩ [65]).2 = []) :=
  ⟨⟨by norm_num [mbMax], by norm_num [mbMax], by unfold scFree; decide⟩,
    c3_mb_buffer_bound ⟨[], none⟩ [65] (by norm_num [mbMax]) (by norm_num [mbMax])
      (by unfold scFree; decide)⟩

theorem lcPhase2_prefix_full : ∀ (ps : List (List Nat)) (st : LcState) (c cf : List (List Nat)),
    lcPhase2 st ps = some c → lcPhase2Full st ps = some cf →
    c <+: cf ∧ (c = [] ↔ cf = []) := by
  intro ps
  induction ps with
  | nil =>
    intro st c cf h1 h2
    simp only [lcPhase2, Option.some.injEq] at h1
    simp only [lcPhase2Full, Option.some.injEq] at h2
    subst h1; subst h2
    simp
  | cons p ps ih =>
    intro st c cf h1 h2
    rw [lcPhase2] at h1
    rw [lcPhase2Full] at h2
    split at h1
    · rename_i hh
      rw [if_pos hh] at h2
      obtain ⟨r, hr, h1⟩ := Option.bind_eq_some.mp h1
      obtain ⟨r2, hr2, h2⟩ := Option.bind_eq_some.mp h2
      rw [hr] at hr2
      injection hr2 with hr2eq
      subst hr2eq
      cases hv : r.2 with
      | none =>
        rw [hv] at h1 h2
        exact ih r.1 c cf h1 h2
      | some vd =>
        rw [hv] at h1 h2
        obtain ⟨q, hq, h1⟩ := Option.bind_eq_some.mp h1
        obtain ⟨q2, hq2, h2⟩ := Option.bind_eq_some.mp h2
        rw [hq] at hq2
        injection hq2 with hq2eq
        subst hq2eq
        obtain ⟨rest, hrest, h2⟩ := Option.bind_eq_some.mp h2
        simp only [pure, Option.some.injEq] at h2
        split at h1
        · rename_i hqe
          have hres := ih q.1 c rest h1 hrest
          rw [hqe] at h2
          simp only [List.nil_append] at h2
          rw [h2] at hres
          exact hres
        · rename_i hqe
          simp only [Option.some.injEq] at h1
          subst h1
          rw [← h2]
          refine ⟨List.prefix_append _ _, ?_⟩
          constructor
          · intro hc; exact absurd hc hqe
          · intro hcf
            rcases List.append_eq_nil.mp hcf with ⟨hc, -⟩
            exact absurd hc hqe
    · rename_i hh
      rw [if_neg hh] at h2
      exact ih st c cf h1 h2

theorem c1_captions_prefix_of_full (data : List Nat) (c cf : List (List Nat))
    (h1 : lcParseTsFile data = some c) (h2 : lcParseTsFileFull data = some cf) :
    c <+: cf ∧ (c = [] ↔ cf = []) := by
  unfold lcParseTsFile at h1
  unfold lcParseTsFileFull at h2
  obtain ⟨r, hr, h1⟩ := Option.bind_eq_some.mp h1
  obtain ⟨r2, hr2, h2⟩ := Option.bind_eq_some.mp h2
  rw [hr] at hr2
  injection hr2 with hr2eq
  subst hr2eq
  split at h1
  · rename_i hcc
    rw [if_pos hcc] at h2
    simp only [pure, Option.some.injEq] at h1 h2
    subst h1; subst h2
    simp
  · rename_i hcc
    rw [if_neg hcc] at h2
    exact lcPhase2_prefix_full r.2 r.1 c cf h1 h2

theorem pmtLoopF_ccpid_isSome : ∀ (fuel : Nat) (pkt : List Nat) (i : Nat) (dll : Int)
    (st st2 : LcState), pmtLoopF fuel pkt i dll st = some st2 →
    st.ccpid.isSome → st2.ccpid.isSome := by
  intro fuel
  induction fuel with
  | zero =>
    intro pkt i dll st st2 h hs
    simp only [pmtLoopF, Option.some.injEq] at h
    subst h; exact hs
  | succ f ih =>
    intro pkt i dll st st2 h hs
    rw [pmtLoopF] at h
    split at h
    · obtain ⟨t, ht, h⟩ := Option.bind_eq_some.mp h
      obtain ⟨e1, he1, h⟩ := Option.bind_eq_some.mp h
      obtain ⟨e2, he2, h⟩ := Option.bind_eq_some.mp h
      obtain ⟨s1, hs1, h⟩ := Option.bind_eq_some.mp h
      obtain ⟨s2, hs2, h⟩ := Option.bind_eq_some.mp h
      apply ih _ _ _ _ _ h
      split
      · simp
      · exact hs
    · simp only [Option.some.injEq] at h
      subst h; exact hs

/-- `C4` amended: what survives of the learn-once claim: once the video
PID is known it is never forgotten (every branch of `parse_packet`
either keeps `ccpid` or overwrites it with another `Some`), but PAT and
PMT packets keep being re-parsed, each current PMT section re-records
the video PID from its last H.264/H.265 triple, and later sections can
change it (see the counterexample). -/
theorem c4_ccpid_stays_known (st : LcState) (pkt : List Nat) (r : LcState × Option (List Nat))
    (h : lcParsePacket st pkt = some r) (hs : st.ccpid.isSome) : r.1.ccpid.isSome := by
  unfold lcParsePacket at h
  obtain ⟨b1, hb1, h⟩ := Option.bind_eq_some.mp h
  obtain ⟨b2, hb2, h⟩ := Option.bind_eq_some.mp h
  obtain ⟨b3, hb3, h⟩ := Option.bind_eq_some.mp h
  obtain ⟨i, hi, h⟩ := Option.bind_eq_some.mp h
  split at h
  · unfold lcPatBody at h
    obtain ⟨ptr, hptr, h⟩ := Option.bind_eq_some.mp h
    split at h
    · obtain ⟨hi0, hh1, h⟩ := Option.bind_eq_some.mp h
      obtain ⟨lo0, hh2, h⟩ := Option.bind_eq_some.mp h
      simp only [pure, Option.some.injEq] at h
      subst h; exact hs
    · simp only [pure, Option.some.injEq] at h
      subst h; exact hs
  · split at h
    · unfold lcPmtBody at h
      obtain ⟨ptr, hptr, h⟩ := Option.bind_eq_some.mp h
      split at h
      · obtain ⟨sl1, hh1, h⟩ := Option.bind_eq_some.mp h
        obtain ⟨sl2, hh2, h⟩ := Option.bind_eq_some.mp h
        obtain ⟨cur, hh3, h⟩ := Option.bind_eq_some.mp h
        obtain ⟨p1, hh4, h⟩ := Option.bind_eq_some.mp h
        obtain ⟨p2, hh5, h⟩ := Option.bind_eq_some.mp h
        split at h
        · obtain ⟨st2, hst2, h⟩ := Option.bind_eq_some.mp h
          simp only [pure, Option.some.injEq] at h
          subst h
          exact pmtLoopF_ccpid_isSome _ _ _ _ _ _ hst2 hs
        · simp only [pure, Option.some.injEq] at h
          subst h; exact hs
      · simp only [pure, Option.some.injEq] at h
        subst h; exact hs
    · split at h
      · unfold lcVideoBody at h
        obtain ⟨pr, hpr, h⟩ := Option.bind_eq_some.mp h
        have hpr1 : pr.1.ccpid.isSome := by
          unfold lcPesStep at hpr
          split at hpr
          · unfold lcPesHeader at hpr
            obtain ⟨b7, hh1, hpr⟩ := Option.bind_eq_some.mp hpr
            obtain ⟨b8, hh2, hpr⟩ := Option.bind_eq_some.mp hpr
            split at hpr
            · obtain ⟨s1, hh3, hpr⟩ := Option.bind_eq_some.mp hpr
              split at hpr
              · obtain ⟨s2, hh4, hpr⟩ := Option.bind_eq_some.mp hpr
                simp only [pure, Option.some.injEq] at hpr
                subst hpr; exact hs
              · simp only [pure, Option.some.injEq] at hpr
                subst hpr; exact hs
            · simp only [pure, Option.some.injEq] at hpr
              subst hpr; exact hs
          · simp only [pure, Option.some.injEq] at hpr
            subst hpr; exact hs
        split at h
        · obtain ⟨pay, hh6, h⟩ := Option.bind_eq_some.mp h
          simp only [pure, Option.some.injEq] at h
          subst h; exact hpr1
        · simp only [pure, Option.some.injEq] at h
          subst h; exact hpr1
      · simp only [pure, Option.some.injEq] at h
        subst h; exact hs

theorem getB_eq_getD {l : List Nat} {i : Nat} (h : i < l.length) :
    getB l i = some (l.getD i 0) := by
  rw [getB, List.getD_eq_get?]
  cases hg : l.get? i with
  | none => rw [List.get?_eq_none] at hg; omega
  | some v => rfl

theorem seiLoopF_all_non4 : ∀ (fuel : Nat) (data : List Nat) (i : Nat) (acc : List (List Nat)),
    (∀ m ∈ lcSeiMsgsF fuel data i, m.1 ≠ 4) → seiLoopF fuel data i acc = some acc := by
  intro fuel
  induction fuel with
  | zero => intro data i acc h; rfl
  | succ f ih =>
    intro data i acc h
    simp only [seiLoopF]
    by_cases h1 : i + 1 < data.length
    case neg => rw [if_neg h1]; rfl
    rw [if_pos h1]
    by_cases h2 : i + ffRun (data.drop i) ≥ data.length
    case pos => rw [if_pos h2]; rfl
    rw [if_neg h2]
    rw [getB_eq_getD (show i + ffRun (data.drop i) < data.length by omega)]
    simp only [Option.bind_eq_bind, Option.some_bind]
    by_cases h3 : i + ffRun (data.drop i) + 1 +
        ffRun (data.drop (i + ffRun (data.drop i) + 1)) ≥ data.length
    case pos => rw [if_pos h3]; rfl
    rw [if_neg h3]
    rw [getB_eq_getD (show i + ffRun (data.drop i) + 1 +
        ffRun (data.drop (i + ffRun (data.drop i) + 1)) < data.length by omega)]
    simp only [Option.bind_eq_bind, Option.some_bind]
    have hmsg : lcSeiMsgsF (f+1) data i =
        ((255 * ffRun (data.drop i) + data.getD (i + ffRun (data.drop i)) 0) % 2^32,
         (255 * ffRun (data.drop (i + ffRun (data.drop i) + 1)) +
            data.getD (i + ffRun (data.drop i) + 1 +
              ffRun (data.drop (i + ffRun (data.drop i) + 1))) 0) % 2^32,
         i + ffRun (data.drop i) + 1 +
            ffRun (data.drop (i + ffRun (data.drop i) + 1)) + 1) ::
        lcSeiMsgsF f data
          (i + ffRun (data.drop i) + 1 +
            ffRun (data.drop (i + ffRun (data.drop i) + 1)) + 1 +
            (255 * ffRun (data.drop (i + ffRun (data.drop i) + 1)) +
              data.getD (i + ffRun (data.drop i) + 1 +
                ffRun (data.drop (i + ffRun (data.drop i) + 1))) 0) % 2^32) := by
      simp only [lcSeiMsgsF]
      rw [if_pos h1, if_neg h2, if_neg h3]
    have hty := h _ (by rw [hmsg]; exact List.mem_cons_self _ _)
    rw [if_neg (by
      intro hcon
      exact hty hcon.1)]
    simp only [Option.pure_def, Option.bind_eq_bind, Option.some_bind]
    apply ih
    intro m hm
    apply h
    rw [hmsg]
    exact List.mem_cons_of_mem _ hm

theorem pmtLoopF_isSome : ∀ (fuel : Nat) (pkt : List Nat) (i : Nat) (dll : Int)
    (st : LcState), (pmtLoopF fuel pkt i dll st).isSome := by
  intro fuel
  induction fuel with
  | zero => intro pkt i dll st; rfl
  | succ f ih =>
    intro pkt i dll st
    rw [pmtLoopF]
    split
    · rename_i hc
      apply bind_isSome_of (getB_isSome (by omega))
      intro t
      apply bind_isSome_of (getB_isSome (by omega))
      intro e1
      apply bind_isSome_of (getB_isSome (by omega))
      intro e2
      apply bind_isSome_of (getB_isSome (by omega))
      intro s1
      apply bind_isSome_of (getB_isSome (by omega))
      intro s2
      exact ih pkt _ _ _
    · rfl

theorem lcPatBody_isSome (st : LcState) (pkt : List Nat) (i : Nat)
    (hi : i < pkt.length) : (lcPatBody st pkt i).isSome := by
  unfold lcPatBody
  apply bind_isSome_of (getB_isSome hi)
  intro ptr
  split
  · rename_i hc
    apply bind_isSome_of (getB_isSome (by omega))
    intro hi0
    apply bind_isSome_of (getB_isSome (by omega))
    intro lo0
    rfl
  · rfl

theorem lcPmtBody_isSome (st : LcState) (pkt : List Nat) (i : Nat)
    (hi : i < pkt.length) : (lcPmtBody st pkt i).isSome := by
  unfold lcPmtBody
  apply bind_isSome_of (getB_isSome hi)
  intro ptr
  split
  · rename_i hc
    apply bind_isSome_of (getB_isSome (by omega))
    intro sl1
    apply bind_isSome_of (getB_isSome (by omega))
    intro sl2
    apply bind_isSome_of (getB_isSome (by omega))
    intro cur
    apply bind_isSome_of (getB_isSome (by omega))
    intro p1
    apply bind_isSome_of (getB_isSome (by omega))
    intro p2
    split
    · apply bind_isSome_of (pmtLoopF_isSome _ _ _ _ _)
      intro st2
      rfl
    · rfl
  · rfl

theorem lcPesHeader_isSome (st : LcState) (pkt : List Nat) (i : Nat)
    (hi : i + 9 ≤ pkt.length) : (lcPesHeader st pkt i).isSome := by
  unfold lcPesHeader
  apply bind_isSome_of (getB_isSome (by omega))
  intro b7
  apply bind_isSome_of (getB_isSome (by omega))
  intro b8
  split
  · rename_i hc
    apply bind_isSome_of (sliceFrom_isSome (by omega))
    intro s1
    split
    · rename_i hc2
      apply bind_isSome_of (sliceFrom_isSome (by omega))
      intro s2
      rfl
    · rfl
  · rfl

theorem lcPesStep_isSome (st : LcState) (pkt : List Nat) (i : Nat) (pusi : Bool) :
    (lcPesStep st pkt i pusi).isSome := by
  unfold lcPesStep
  split
  · rename_i hc
    exact lcPesHeader_isSome st pkt i hc.2
  · rfl

theorem lcVideoBody_isSome (st : LcState) (pkt : List Nat) (i : Nat) (pusi : Bool) :
    (lcVideoBody st pkt i pusi).isSome := by
  unfold lcVideoBody
  apply bind_isSome_of (lcPesStep_isSome st pkt i pusi)
  intro r
  split
  · rename_i hc
    apply bind_isSome_of (sliceFrom_isSome (by omega))
    intro pay
    rfl
  · rfl

theorem lcAfterHeader_isSome (pkt : List Nat) (b3 : Nat) (h : 5 ≤ pkt.length) :
    (lcAfterHeader pkt b3).isSome := by
  unfold lcAfterHeader
  split
  · apply bind_isSome_of (getB_isSome (by omega))
    intro al
    rfl
  · rfl

theorem lcParsePacket_isSome (st : LcState) (pkt : List Nat) (h : 5 ≤ pkt.length) :
    (lcParsePacket st pkt).isSome := by
  unfold lcParsePacket
  apply bind_isSome_of (getB_isSome (by omega))
  intro b1
  apply bind_isSome_of (getB_isSome (by omega))
  intro b2
  apply bind_isSome_of (getB_isSome (by omega))
  intro b3
  apply bind_isSome_of (lcAfterHeader_isSome pkt b3 h)
  intro i
  split
  · rename_i hc
    exact lcPatBody_isSome st pkt i hc.2.2
  · split
    · rename_i hc
      exact lcPmtBody_isSome st pkt i hc.2.2
    · split
      · exact lcVideoBody_isSome st pkt i _
      · rfl

theorem ccLoopF_isSome : ∀ (n : Nat) (data : List Nat) (i : Nat) (acc : List Nat),
    (ccLoopF n data i acc).isSome := by
  intro n
  induction n with
  | zero => intro data i acc; rfl
  | succ m ih =>
    intro data i acc
    rw [ccLoopF]
    split
    · rfl
    · rename_i hc
      apply bind_isSome_of (getB_isSome (by omega))
      intro b0
      apply bind_isSome_of (getB_isSome (by omega))
      intro b1
      apply bind_isSome_of (getB_isSome (by omega))
      intro b2
      exact ih data _ _

theorem lcParseCea708_isSome (data : List Nat) : (lcParseCea708 data).isSome := by
  unfold lcParseCea708
  split
  · rfl
  · rename_i hlen
    apply bind_isSome_of (getB_isSome (by omega))
    intro d0
    split
    · rfl
    · split
      · rfl
      · split
        · rfl
        · rename_i h7
          apply bind_isSome_of (getB_isSome (by omega))
          intro d7
          split
          · rfl
          · split
            · rfl
            · rename_i h8
              apply bind_isSome_of (getB_isSome (by omega))
              intro d8
              apply bind_isSome_of (ccLoopF_isSome _ _ _ _)
              intro text
              split
              · rfl
              · rfl

theorem seiLoopF_isSome : ∀ (fuel : Nat) (data : List Nat) (i : Nat)
    (acc : List (List Nat)), (seiLoopF fuel data i acc).isSome := by
  intro fuel
  induction fuel with
  | zero => intro data i acc; rfl
  | succ f ih =>
    intro data i acc
    simp only [seiLoopF]
    split
    · rename_i h1
      split
      · rfl
      · rename_i h2
        apply bind_isSome_of (getB_isSome (by omega))
        intro tb
        split
        · rfl
        · rename_i h3
          apply bind_isSome_of (getB_isSome (by omega))
          intro sb
          split
          · apply bind_isSome_of (lcParseCea708_isSome _)
            intro r
            apply bind_isSome_of (by rfl)
            intro y
            exact ih data _ _
          · apply bind_isSome_of (by rfl)
            intro y
            exact ih data _ _
    · rfl

theorem lcParseSeiNalu_isSome (data : List Nat) : (lcParseSeiNalu data).isSome := by
  unfold lcParseSeiNalu
  apply bind_isSome_of (seiLoopF_isSome _ _ _ _)
  intro caps
  rfl

theorem lcProcessNalu_isSome (nalu : List Nat) : (lcProcessNalu nalu).isSome := by
  unfold lcProcessNalu
  split
  · rfl
  · rename_i hne
    apply bind_isSome_of (getB_isSome ?_)
    · intro h
      split
      · exact lcParseSeiNalu_isSome _
      · rfl
    · cases nalu with
      | nil => exact absurd rfl hne
      | cons a l => simp

theorem lcCapsOfNalus_isSome : ∀ (nalus : List (List Nat)) (acc : List (List Nat)),
    (lcCapsOfNalus nalus acc).isSome := by
  intro nalus
  induction nalus with
  | nil => intro acc; rfl
  | cons n rest ih =>
    intro acc
    rw [lcCapsOfNalus]
    apply bind_isSome_of (lcProcessNalu_isSome n)
    intro r
    exact ih _

theorem lcProcessVideoData_isSome (st : LcState) (chunk : List Nat) :
    (lcProcessVideoData st chunk).isSome := by
  unfold lcProcessVideoData
  apply bind_isSome_of (lcCapsOfNalus_isSome _ _)
  intro caps
  rfl

theorem lcPacketsF_length : ∀ (fuel : Nat) (l : List Nat) (p : List Nat),
    p ∈ lcPacketsF fuel l → p.length = 188 := by
  intro fuel
  induction fuel with
  | zero => intro l p hp; simp [lcPacketsF] at hp
  | succ f ih =>
    intro l p hp
    rw [lcPacketsF] at hp
    split at hp
    · rename_i hc
      rcases List.mem_cons.mp hp with h | h
      · subst h
        simp [List.length_take]
        omega
      · exact ih _ p h
    · simp at hp

theorem lcPhase1_isSome : ∀ (ps : List (List Nat)) (st : LcState),
    (∀ p ∈ ps, p.length = 188) → (lcPhase1 st ps).isSome := by
  intro ps
  induction ps with
  | nil => intro st h; rfl
  | cons p rest ih =>
    intro st h
    rw [lcPhase1]
    split
    · apply bind_isSome_of (lcParsePacket_isSome st p (by rw [h p (List.mem_cons_self _ _)]; omega))
      intro r
      split
      · rfl
      · exact ih r.1 (fun q hq => h q (List.mem_cons_of_mem _ hq))
    · exact ih st (fun q hq => h q (List.mem_cons_of_mem _ hq))

theorem lcPhase2_isSome : ∀ (ps : List (List Nat)) (st : LcState),
    (∀ p ∈ ps, p.length = 188) → (lcPhase2 st ps).isSome := by
  intro ps
  induction ps with
  | nil => intro st h; rfl
  | cons p rest ih =>
    intro st h
    rw [lcPhase2]
    split
    · apply bind_isSome_of (lcParsePacket_isSome st p (by rw [h p (List.mem_cons_self _ _)]; omega))
      intro r
      cases r.2 with
      | none => exact ih r.1 (fun q hq => h q (List.mem_cons_of_mem _ hq))
      | some vd =>
        apply bind_isSome_of (lcProcessVideoData_isSome _ _)
        intro q
        split
        · exact ih q.1 (fun z hz => h z (List.mem_cons_of_mem _ hz))
        · rfl
    · exact ih st (fun q hq => h q (List.mem_cons_of_mem _ hq))

theorem lcPhase1_rest_mem : ∀ (ps : List (List Nat)) (st : LcState)
    (r : LcState × List (List Nat)), lcPhase1 st ps = some r →
    ∀ p ∈ r.2, p ∈ ps := by
  intro ps
  induction ps with
  | nil =>
    intro st r h p hp
    simp only [lcPhase1, Option.some.injEq] at h
    subst h
    simp at hp
  | cons q rest ih =>
    intro st r h p hp
    rw [lcPhase1] at h
    split at h
    · obtain ⟨r1, hr1, h⟩ := Option.bind_eq_some.mp h
      split at h
      · simp only [Option.some.injEq] at h
        subst h
        exact List.mem_cons_of_mem _ hp
      · exact List.mem_cons_of_mem _ (ih r1.1 r h p hp)
    · exact List.mem_cons_of_mem _ (ih st r h p hp)

/-- `C7`: the core pipeline is total and panic-free: for every input
byte sequence, `parse_ts_file` (with every direct byte read and open
slice modelled as a fallible read) returns a result — every read is
reached only under a guard that establishes its bound, and every loop
of the embedding is a structural recursion whose fuel dominates the
iteration count of the source loop. -/
theorem c7_pipeline_total_no_panic (data : List Nat) : (lcParseTsFile data).isSome := by
  unfold lcParseTsFile
  have h188 : ∀ p ∈ lcPackets data, p.length = 188 :=
    fun p hp => lcPacketsF_length _ _ p hp
  obtain ⟨r, hr⟩ := Option.isSome_iff_exists.mp (lcPhase1_isSome (lcPackets data) lcInit h188)
  rw [hr]
  simp only [Option.bind_eq_bind, Option.some_bind]
  split
  · rfl
  · exact lcPhase2_isSome r.2 r.1
      (fun p hp => h188 p (lcPhase1_rest_mem _ _ _ hr p hp))


theorem c1_captions_prefix_of_full_witness :
    (lcParseTsFile exSegYo = some [[0x59, 0x4F]] ∧
      lcParseTsFileFull exSegYo = some [[0x59, 0x4F]]) ∧
    (([[0x59, 0x4F]] : List (List Nat)) <+: [[0x59, 0x4F]] ∧
      (([[0x59, 0x4F]] : List (List Nat)) = [] ↔
        ([[0x59, 0x4F]] : List (List Nat)) = [])) :=
  ⟨⟨by decide, by decide⟩,
    c1_captions_prefix_of_full exSegYo [[0x59, 0x4F]] [[0x59, 0x4F]]
      (by decide) (by decide)⟩

theorem c4_ccpid_stays_known_witness :
    ({ lcInit with ccpid := some 0x100 } : LcState).ccpid.isSome ∧
    (({ lcInit with ccpid := some 0x100 } : LcState),
      (none : Option (List Nat))).1.ccpid.isSome :=
  ⟨by decide,
    c4_ccpid_stays_known { lcInit with ccpid := some 0x100 } exNullPkt
      ({ lcInit with ccpid := some 0x100 }, none) (by decide) (by decide)⟩

/-- `C9` amended: in the SEI parser the segment pipeline actually runs
(`parse_sei_nalu`), an SEI NAL unit none of whose messages has payload
type 4 contributes no captions at all: only `payload_type == 4` messages
reach the CEA envelope decoder.  The legacy `CaptionDetector` path
attempts CEA decode on every SEI type (see the counterexample). -/
theorem c9_only_type4_contributes (data : List Nat)
    (h : ∀ m ∈ lcSeiMsgs data, m.1 ≠ 4) : lcParseSeiNalu data = some none := by
  unfold lcParseSeiNalu
  rw [seiLoopF_all_non4 (data.length + 1) data 0 [] h]
  rfl

theorem c9_only_type4_contributes_witness :
    (∀ m ∈ lcSeiMsgs [0x05, 0x02, 0xAA, 0xBB], m.1 ≠ 4) ∧
    lcParseSeiNalu [0x05, 0x02, 0xAA, 0xBB] = some none :=
  ⟨by decide, c9_only_type4_contributes [0x05, 0x02, 0xAA, 0xBB] (by decide)⟩

end HlsCap
